import Mathlib

/-!
Shallow embedding of the timer core of the LifeTracker web application
(`src/mobile-tracker/src/api/timerService.js` and
`src/mobile-tracker/src/components/TimerOverlay.jsx`).

Timestamps are modelled as `Int` milliseconds since the epoch (the JS code
stores ISO strings and always converts them with `new Date(x).getTime()`
before arithmetic or comparison, so the integer millisecond value is the
semantics that matters).  Database rows are modelled as a list held in a
`Store`; each awaited supabase call is modelled by the corresponding pure
query over that list, and the one transport-failure path the claims are
about (the list call inside `getAggregate`) is modelled by passing the
fetch outcome as an `Except` value.
-/

namespace LifeTracker

/-- A row of the `time_entries` table.  `end_at = none` means the entry is
running; `duration_seconds = none` models an absent / non-numeric column. -/
structure TimeEntry where
  id : Nat
  task_id : Nat
  start_at : Int
  end_at : Option Int
  duration_seconds : Option Int
deriving DecidableEq

/-- A row of the `tasks` table (only the fields the timer code touches). -/
structure Task where
  id : Nat
  status : String
deriving DecidableEq

/-- The persisted state seen by the timer code: the `time_entries` rows, the
identifier the database will assign to the next inserted row, and the
`tasks` rows. -/
structure Store where
  rows : List TimeEntry
  nextId : Nat
  tasks : List Task
deriving DecidableEq

/-- Model of `Math.round((aMs - bMs) / 1000)` on an integer millisecond
difference: JavaScript `Math.round x` is `⌊x + 1/2⌋`, so for the exact
rational `diffMs / 1000` it is `⌊(2 * diffMs + 1000) / 2000⌋`.  `Int`
division `/` is Euclidean division, which agrees with floor division for
the positive divisor `2000`. -/
def jsRoundDiv1000 (diffMs : Int) : Int := (2 * diffMs + 1000) / 2000

/-- The relation `a.start_at ≤ b.start_at` used by the `order('start_at',
ascending)` clauses of the supabase queries. -/
def startLE (a b : TimeEntry) : Prop := a.start_at ≤ b.start_at

instance : DecidableRel startLE := fun a b =>
  inferInstanceAs (Decidable (a.start_at ≤ b.start_at))

instance : IsTotal TimeEntry startLE := ⟨fun a b => Int.le_total a.start_at b.start_at⟩

instance : IsTrans TimeEntry startLE := ⟨fun _ _ _ h h2 => le_trans h h2⟩

/-- Ordering of a query result by `start_at` ascending. -/
def sortByStart (l : List TimeEntry) : List TimeEntry := l.insertionSort startLE

/-- Model of `supabase.from('time_entries').select('*').eq('task_id',
taskId).order('start_at', ascending)` (the query of `listEntries` and of
`getAggregate`). -/
def fetchEntries (taskId : Nat) (s : Store) : List TimeEntry :=
  sortByStart (s.rows.filter (fun r => r.task_id == taskId))

/-- The aggregate object returned by `getAggregate`; in the success case
the JS object carries no `error` key, modelled by `error = none`. -/
structure Aggregate where
  baseSeconds : Int
  runningEntry : Option TimeEntry
  entries : List TimeEntry
  warnings : List String
  error : Option String
deriving DecidableEq

/-- One step of the `entries.forEach` accumulation of `getAggregate`
(timerService.js lines 118-123): `if (r.end_at && typeof
r.duration_seconds === 'number') baseSeconds += r.duration_seconds || 0`.
A present `end_at` (a non-empty ISO string) is truthy, and
`r.duration_seconds || 0` equals `r.duration_seconds` whenever the branch
is taken (for the falsy number 0 both sides are 0). -/
def baseStep (acc : Int) (r : TimeEntry) : Int :=
  match r.end_at, r.duration_seconds with
  | some _, some d => acc + d
  | _, _ => acc

/-- The JS reducer `(a, b) => (new Date(a.start_at) > new Date(b.start_at) ? a : b)`. -/
def pick (a b : TimeEntry) : TimeEntry := if b.start_at < a.start_at then a else b

/-- Model of `runningRows.reduce((a, b) => ...)` — `Array.prototype.reduce`
with no initial value starts from the first element. -/
def pickLatest : List TimeEntry → Option TimeEntry
  | [] => none
  | x :: xs => some (xs.foldl pick x)

/-- Embedding of `getAggregate` (timerService.js lines 90-126).  The
result of the awaited supabase list call is the `fetched` argument: `ok`
carries the rows `entries`, `error` carries `entriesErr`. -/
def getAggregate (fetched : Except String (List TimeEntry)) : Aggregate :=
  match fetched with
  | Except.error e =>
      { baseSeconds := 0, runningEntry := none, entries := [],
        warnings := ["entries_fetch_error"], error := some e }
  | Except.ok entries =>
      let runningRows := entries.filter (fun r => r.end_at.isNone)
      let runningEntry : Option TimeEntry :=
        if runningRows.length = 1 then runningRows.head?
        else if 1 < runningRows.length then pickLatest runningRows
        else none
      let warnings : List String :=
        if 1 < runningRows.length then
          ["multiple_running_entries:" ++ toString runningRows.length]
        else []
      let baseSeconds := entries.foldl baseStep 0
      { baseSeconds := baseSeconds, runningEntry := runningEntry,
        entries := entries, warnings := warnings, error := none }

/-- Written from the spec's words for comparison with the code: the sum of
`durationSeconds` over exactly the entries with both `endAt` and a numeric
`durationSeconds` present. -/
def specBaseSum (entries : List TimeEntry) : Int :=
  ((entries.filter (fun r => r.end_at.isSome && r.duration_seconds.isSome)).map
    (fun r => r.duration_seconds.getD 0)).sum

lemma foldl_baseStep_eq (l : List TimeEntry) :
    ∀ a : Int, l.foldl baseStep a = a + specBaseSum l := by
  induction l with
  | nil => intro a; simp [specBaseSum]
  | cons x xs ih =>
      intro a
      rcases hx : x.end_at with _ | e <;> rcases hd : x.duration_seconds with _ | d
      all_goals simp [List.foldl_cons, baseStep, hx, hd, ih, specBaseSum, List.filter_cons]
      all_goals ring

/-- Claim C1: for every fetched list of time-entry rows, the `baseSeconds`
returned by `getAggregate` equals the sum of `duration_seconds` over
exactly the entries that have both `end_at` and a numeric
`duration_seconds` present; closed entries without a recorded duration and
running entries contribute nothing. -/
theorem getAggregate_baseSeconds_spec (entries : List TimeEntry) :
    (getAggregate (Except.ok entries)).baseSeconds = specBaseSum entries := by
  simp [getAggregate, foldl_baseStep_eq]

/-- Claim C8: when the underlying list operation fails, `getAggregate`
returns (rather than throwing) a zeroed aggregate — `baseSeconds = 0`,
`runningEntry = none`, `entries = []` — whose warnings contain
`entries_fetch_error`, alongside the error value. -/
theorem getAggregate_fetchError_spec (e : String) :
    getAggregate (Except.error e) =
      { baseSeconds := 0, runningEntry := none, entries := [],
        warnings := ["entries_fetch_error"], error := some e } ∧
    "entries_fetch_error" ∈ (getAggregate (Except.error e)).warnings := by
  refine ⟨rfl, ?_⟩
  simp [getAggregate]

/-- The `{ data, error }` object returned by `stopEntry`. -/
structure StopResult where
  data : Option TimeEntry
  error : Option String
deriving DecidableEq

/-- The row update performed by `stopEntry`'s
`update({ end_at, duration_seconds }).eq('id', entryId)`: every row whose
id matches has its `end_at` and `duration_seconds` columns set to the two
constants computed before the update; other rows are untouched. -/
def stopWriteFn (entryId : Nat) (eA d : Int) (r : TimeEntry) : TimeEntry :=
  if r.id == entryId then { r with end_at := some eA, duration_seconds := some d } else r

/-- Embedding of `stopEntry` (timerService.js lines 49-71).  `endAtIso` is
the optional `endAtIso` argument (default `null`); `now` is the value of
`new Date()` at the call.  The fetch `select('*').eq('id',
entryId).maybeSingle()` is the first matching row; if it is absent the
function returns `{ data: null, error: Error('Entry not found') }` and
issues no update.  Otherwise `duration_seconds = max(0,
round((end_at - existing.start_at) / 1000))` is computed once from the
fetched row and written together with `end_at` in a single update, and the
updated row is returned. -/
def stopEntry (entryId : Nat) (endAtIso : Option Int) (now : Int) (s : Store) :
    StopResult × Store :=
  let end_at := endAtIso.getD now
  match s.rows.find? (fun r => r.id == entryId) with
  | none => ({ data := none, error := some "Entry not found" }, s)
  | some existing =>
      let duration_seconds := max 0 (jsRoundDiv1000 (end_at - existing.start_at))
      let newRows := s.rows.map (stopWriteFn entryId end_at duration_seconds)
      ({ data := newRows.find? (fun r => r.id == entryId), error := none },
       { s with rows := newRows })

lemma stopWriteFn_id (entryId : Nat) (eA d : Int) (r : TimeEntry) :
    (stopWriteFn entryId eA d r).id = r.id := by
  unfold stopWriteFn
  by_cases h : (r.id == entryId) = true <;> simp [h]

lemma find?_map_stopWriteFn (l : List TimeEntry) (entryId : Nat) (eA d : Int) :
    (l.map (stopWriteFn entryId eA d)).find? (fun r => r.id == entryId) =
      (l.find? (fun r => r.id == entryId)).map (stopWriteFn entryId eA d) := by
  rw [List.find?_map]
  have hp : ((fun r : TimeEntry => r.id == entryId) ∘ stopWriteFn entryId eA d) =
      (fun r : TimeEntry => r.id == entryId) := by
    funext r
    simp [Function.comp, stopWriteFn_id]
  rw [hp]

lemma stopWriteFn_idem (entryId : Nat) (eA d : Int) (r : TimeEntry) :
    stopWriteFn entryId eA d (stopWriteFn entryId eA d r) = stopWriteFn entryId eA d r := by
  unfold stopWriteFn
  by_cases h : (r.id == entryId) = true <;> simp [h]

/-- The value of a row after `stopEntry` has finalized it with end time
`eA`: `end_at := eA` and `duration_seconds := max 0 (round ((eA -
start_at) / 1000))`, the two fields written together by the single
update. -/
def stoppedRow (r : TimeEntry) (eA : Int) : TimeEntry :=
  { r with end_at := some eA, duration_seconds := some (max 0 (jsRoundDiv1000 (eA - r.start_at))) }

lemma stopWriteFn_eq_stoppedRow (entryId : Nat) (eA : Int) (r : TimeEntry)
    (hid : (r.id == entryId) = true) :
    stopWriteFn entryId eA (max 0 (jsRoundDiv1000 (eA - r.start_at))) r = stoppedRow r eA := by
  rw [stopWriteFn, if_pos hid, stoppedRow]

lemma stopEntry_eq_of_found (s : Store) (entryId : Nat) (endAtIso : Option Int) (now : Int)
    (r : TimeEntry) (h : s.rows.find? (fun x => x.id == entryId) = some r) :
    stopEntry entryId endAtIso now s =
      ({ data := some (stoppedRow r (endAtIso.getD now)), error := none },
       { s with rows := s.rows.map (stopWriteFn entryId (endAtIso.getD now)
            (max 0 (jsRoundDiv1000 (endAtIso.getD now - r.start_at)))) }) := by
  have hid : (r.id == entryId) = true := by simpa using List.find?_some h
  simp only [stopEntry, h]
  rw [find?_map_stopWriteFn, h, Option.map_some']
  rw [stopWriteFn_eq_stoppedRow _ _ _ hid]

/-- Claim C6: for every stored entry and every end time (supplied as
`endAtIso` or defaulted to `now`), `stopEntry` writes `duration_seconds =
max 0 (round ((endAt - startAt) / 1000))` — never negative, even when the
end time is earlier than `start_at` — and writes `end_at` and
`duration_seconds` together: the returned entry and the stored row both
carry exactly this pair. -/
theorem stopEntry_clamp_spec (s : Store) (entryId : Nat) (endAtIso : Option Int) (now : Int)
    (r : TimeEntry) (h : s.rows.find? (fun x => x.id == entryId) = some r) :
    0 ≤ max 0 (jsRoundDiv1000 (endAtIso.getD now - r.start_at)) ∧
    (stoppedRow r (endAtIso.getD now)).end_at = some (endAtIso.getD now) ∧
    (stoppedRow r (endAtIso.getD now)).duration_seconds =
      some (max 0 (jsRoundDiv1000 (endAtIso.getD now - r.start_at))) ∧
    (stopEntry entryId endAtIso now s).1.data = some (stoppedRow r (endAtIso.getD now)) ∧
    (stopEntry entryId endAtIso now s).2.rows.find? (fun x => x.id == entryId) =
      some (stoppedRow r (endAtIso.getD now)) ∧
    (stopEntry entryId endAtIso now s).1.error = none := by
  have hid : (r.id == entryId) = true := by simpa using List.find?_some h
  rw [stopEntry_eq_of_found s entryId endAtIso now r h]
  refine ⟨le_max_left 0 _, rfl, rfl, rfl, ?_, rfl⟩
  rw [find?_map_stopWriteFn, h, Option.map_some']
  rw [stopWriteFn_eq_stoppedRow _ _ _ hid]

/-- Concrete running entry used by the claim C6 witness. -/
def wRowC6 : TimeEntry :=
  { id := 5, task_id := 2, start_at := 10000, end_at := none, duration_seconds := none }

/-- Concrete store used by the claim C6 witness. -/
def wStoreC6 : Store := { rows := [wRowC6], nextId := 6, tasks := [] }

/-- Claim C6 witness: stopping entry 5 (start 10000 ms) with an override
2500 ms earlier than the start clamps the duration to zero and writes both
fields together. -/
theorem stopEntry_clamp_spec_witness :
    0 ≤ max 0 (jsRoundDiv1000 ((some (7500 : Int)).getD 0 - wRowC6.start_at)) ∧
    (stoppedRow wRowC6 ((some (7500 : Int)).getD 0)).end_at = some ((some (7500 : Int)).getD 0) ∧
    (stoppedRow wRowC6 ((some (7500 : Int)).getD 0)).duration_seconds =
      some (max 0 (jsRoundDiv1000 ((some (7500 : Int)).getD 0 - wRowC6.start_at))) ∧
    (stopEntry 5 (some 7500) 0 wStoreC6).1.data =
      some (stoppedRow wRowC6 ((some (7500 : Int)).getD 0)) ∧
    (stopEntry 5 (some 7500) 0 wStoreC6).2.rows.find? (fun x => x.id == 5) =
      some (stoppedRow wRowC6 ((some (7500 : Int)).getD 0)) ∧
    (stopEntry 5 (some 7500) 0 wStoreC6).1.error = none :=
  stopEntry_clamp_spec wStoreC6 5 (some 7500) 0 wRowC6 (by decide)

/-- Claim C9: for every entry id not present in the store, `stopEntry`
fails with the not-found error: it returns `data = null` with an error,
and performs no update — the store is unchanged (the update is only issued
after a successful fetch). -/
theorem stopEntry_notFound_spec (s : Store) (entryId : Nat) (endAtIso : Option Int) (now : Int)
    (h : s.rows.find? (fun x => x.id == entryId) = none) :
    (stopEntry entryId endAtIso now s).1.data = none ∧
    (stopEntry entryId endAtIso now s).1.error = some "Entry not found" ∧
    (stopEntry entryId endAtIso now s).2 = s := by
  simp [stopEntry, h]

/-- Claim C9 witness: stopping the absent entry id 9 on a one-row store
errors and leaves the store unchanged. -/
theorem stopEntry_notFound_spec_witness :
    ({ rows := [wRowC6], nextId := 6, tasks := [] } : Store).rows.find?
        (fun x => x.id == 9) = none ∧
    (stopEntry 9 none 1234 { rows := [wRowC6], nextId := 6, tasks := [] }).1.data = none ∧
    (stopEntry 9 none 1234 { rows := [wRowC6], nextId := 6, tasks := [] }).1.error =
      some "Entry not found" ∧
    (stopEntry 9 none 1234 { rows := [wRowC6], nextId := 6, tasks := [] }).2 =
      { rows := [wRowC6], nextId := 6, tasks := [] } := by
  refine ⟨by decide, ?_⟩
  exact stopEntry_notFound_spec { rows := [wRowC6], nextId := 6, tasks := [] } 9 none 1234
    (by decide)

lemma map_stopWriteFn_idem (l : List TimeEntry) (entryId : Nat) (eA d : Int) :
    (l.map (stopWriteFn entryId eA d)).map (stopWriteFn entryId eA d) =
      l.map (stopWriteFn entryId eA d) := by
  rw [List.map_map]
  apply List.map_congr_left
  intro r _
  exact stopWriteFn_idem entryId eA d r

lemma stopWriteFn_start_at (entryId : Nat) (eA d : Int) (r : TimeEntry) :
    (stopWriteFn entryId eA d r).start_at = r.start_at := by
  unfold stopWriteFn
  by_cases h : (r.id == entryId) = true <;> simp [h]

/-- Claim C2: `stopEntry` is idempotent.  For every entry id present in
the store, two sequential calls with the same fixed `endAtIso` override
(`some T`) both succeed, the second call re-derives the result from the
immutable `start_at` and the supplied end time, and it produces exactly
the same `duration_seconds`, the same returned entry, and the same final
store as the first call — whatever the wall-clock values `now1`, `now2` of
the two calls. -/
theorem stopEntry_idempotent_spec (s : Store) (entryId : Nat) (T now1 now2 : Int)
    (h : (s.rows.find? (fun x => x.id == entryId)).isSome = true) :
    (stopEntry entryId (some T) now2 (stopEntry entryId (some T) now1 s).2).1.data =
      (stopEntry entryId (some T) now1 s).1.data ∧
    (stopEntry entryId (some T) now2 (stopEntry entryId (some T) now1 s).2).2 =
      (stopEntry entryId (some T) now1 s).2 ∧
    ((stopEntry entryId (some T) now2 (stopEntry entryId (some T) now1 s).2).1.data.bind
        TimeEntry.duration_seconds) =
      ((stopEntry entryId (some T) now1 s).1.data.bind TimeEntry.duration_seconds) ∧
    (stopEntry entryId (some T) now1 s).1.error = none ∧
    (stopEntry entryId (some T) now2 (stopEntry entryId (some T) now1 s).2).1.error = none := by
  obtain ⟨r, hr⟩ := Option.isSome_iff_exists.mp h
  have h1 := stopEntry_eq_of_found s entryId (some T) now1 r hr
  have hid : (r.id == entryId) = true := by simpa using List.find?_some hr
  have hgd : (some T : Option Int).getD now1 = T := rfl
  have hr2 : (stopEntry entryId (some T) now1 s).2.rows.find? (fun x => x.id == entryId) =
      some (stoppedRow r T) := by
    rw [h1]
    simp only
    rw [find?_map_stopWriteFn, hr, Option.map_some', hgd]
    rw [stopWriteFn_eq_stoppedRow _ _ _ hid]
  have h2 := stopEntry_eq_of_found (stopEntry entryId (some T) now1 s).2 entryId (some T) now2
    (stoppedRow r T) hr2
  have hstart : (stoppedRow r T).start_at = r.start_at := rfl
  have hsame : stoppedRow (stoppedRow r T) T = stoppedRow r T := by
    simp [stoppedRow]
  rw [h2, h1]
  have hmap := map_stopWriteFn_idem s.rows entryId T (max 0 (jsRoundDiv1000 (T - r.start_at)))
  simp only [Option.getD_some, hstart, hsame]
  simp [hmap]

/-- Concrete running entry used by the claim C2 witness. -/
def wRowC2 : TimeEntry :=
  { id := 3, task_id := 1, start_at := 1000, end_at := none, duration_seconds := none }

/-- Concrete store used by the claim C2 witness: one running entry id 3. -/
def wStoreC2 : Store := { rows := [wRowC2], nextId := 4, tasks := [] }

/-- Claim C2 witness: stopping entry 3 twice with the fixed override
64000 ms gives the same data, duration and store on both calls. -/
theorem stopEntry_idempotent_spec_witness :
    (stopEntry 3 (some 64000) 99999 (stopEntry 3 (some 64000) 5000 wStoreC2).2).1.data =
      (stopEntry 3 (some 64000) 5000 wStoreC2).1.data ∧
    (stopEntry 3 (some 64000) 99999 (stopEntry 3 (some 64000) 5000 wStoreC2).2).2 =
      (stopEntry 3 (some 64000) 5000 wStoreC2).2 ∧
    ((stopEntry 3 (some 64000) 99999 (stopEntry 3 (some 64000) 5000 wStoreC2).2).1.data.bind
        TimeEntry.duration_seconds) =
      ((stopEntry 3 (some 64000) 5000 wStoreC2).1.data.bind TimeEntry.duration_seconds) ∧
    (stopEntry 3 (some 64000) 5000 wStoreC2).1.error = none ∧
    (stopEntry 3 (some 64000) 99999 (stopEntry 3 (some 64000) 5000 wStoreC2).2).1.error = none :=
  stopEntry_idempotent_spec wStoreC2 3 64000 5000 99999 (by decide)

/-- Claim C10: the values `stopEntry` writes depend only on the entry's
immutable `start_at` and the supplied override (or defaulted `now`): any
stored `end_at` and `duration_seconds` are never read and are
unconditionally overwritten.  First conjunct: stopping an already-closed
entry (arbitrary stored `oldE`, `oldD`) replaces both fields with values
recomputed from `start_at` and the new end time.  Second conjunct: two
stores whose matching rows agree on `start_at` alone receive identical
written `end_at` and `duration_seconds`. -/
theorem stopEntry_overwrite_spec :
    (∀ (s : Store) (entryId : Nat) (endAtIso : Option Int) (now : Int) (r : TimeEntry)
        (oldE oldD : Int),
        s.rows.find? (fun x => x.id == entryId) = some r →
        r.end_at = some oldE → r.duration_seconds = some oldD →
        (stopEntry entryId endAtIso now s).1.data = some (stoppedRow r (endAtIso.getD now)) ∧
        (stoppedRow r (endAtIso.getD now)).end_at = some (endAtIso.getD now) ∧
        (stoppedRow r (endAtIso.getD now)).duration_seconds =
          some (max 0 (jsRoundDiv1000 (endAtIso.getD now - r.start_at)))) ∧
    (∀ (s s2 : Store) (entryId : Nat) (endAtIso : Option Int) (now : Int) (r r2 : TimeEntry),
        s.rows.find? (fun x => x.id == entryId) = some r →
        s2.rows.find? (fun x => x.id == entryId) = some r2 →
        r.start_at = r2.start_at →
        ((stopEntry entryId endAtIso now s).1.data.map TimeEntry.end_at) =
          ((stopEntry entryId endAtIso now s2).1.data.map TimeEntry.end_at) ∧
        ((stopEntry entryId endAtIso now s).1.data.map TimeEntry.duration_seconds) =
          ((stopEntry entryId endAtIso now s2).1.data.map TimeEntry.duration_seconds)) := by
  constructor
  · intro s entryId endAtIso now r oldE oldD hr _ _
    rw [stopEntry_eq_of_found s entryId endAtIso now r hr]
    exact ⟨rfl, rfl, rfl⟩
  · intro s s2 entryId endAtIso now r r2 hr hr2 hstart
    rw [stopEntry_eq_of_found s entryId endAtIso now r hr,
      stopEntry_eq_of_found s2 entryId endAtIso now r2 hr2]
    simp [stoppedRow, hstart]

/-- Concrete already-closed entry used by the claim C10 witness. -/
def wRowC10 : TimeEntry :=
  { id := 8, task_id := 4, start_at := 2000, end_at := some 5000, duration_seconds := some 3 }

/-- Concrete store used by the claim C10 witness. -/
def wStoreC10 : Store := { rows := [wRowC10], nextId := 9, tasks := [] }

/-- Second concrete row for the claim C10 witness: same id and `start_at`,
different stored `end_at` and `duration_seconds`. -/
def wRowC10b : TimeEntry :=
  { id := 8, task_id := 4, start_at := 2000, end_at := some 777777, duration_seconds := some 999 }

/-- Second concrete store for the claim C10 witness. -/
def wStoreC10b : Store := { rows := [wRowC10b], nextId := 9, tasks := [] }

/-- Claim C10 witness: re-stopping the closed entry 8 at 12000 ms
overwrites its stored end time 5000 and duration 3, and two stores
agreeing only on `start_at` receive the same written fields. -/
theorem stopEntry_overwrite_spec_witness :
    ((stopEntry 8 (some 12000) 0 wStoreC10).1.data =
        some (stoppedRow wRowC10 ((some (12000 : Int)).getD 0)) ∧
      (stoppedRow wRowC10 ((some (12000 : Int)).getD 0)).end_at =
        some ((some (12000 : Int)).getD 0) ∧
      (stoppedRow wRowC10 ((some (12000 : Int)).getD 0)).duration_seconds =
        some (max 0 (jsRoundDiv1000 ((some (12000 : Int)).getD 0 - wRowC10.start_at)))) ∧
    (((stopEntry 8 (some 12000) 0 wStoreC10).1.data.map TimeEntry.end_at) =
        ((stopEntry 8 (some 12000) 0 wStoreC10b).1.data.map TimeEntry.end_at) ∧
      ((stopEntry 8 (some 12000) 0 wStoreC10).1.data.map TimeEntry.duration_seconds) =
        ((stopEntry 8 (some 12000) 0 wStoreC10b).1.data.map TimeEntry.duration_seconds)) :=
  ⟨stopEntry_overwrite_spec.1 wStoreC10 8 (some 12000) 0 wRowC10 5000 3
      (by decide) (by decide) (by decide),
    stopEntry_overwrite_spec.2 wStoreC10 wStoreC10b 8 (some 12000) 0 wRowC10 wRowC10b
      (by decide) (by decide) (by decide)⟩

/-- The `{ data, created, error, warnings }` object returned by
`createEntry`. -/
structure CreateResult where
  data : Option TimeEntry
  created : Bool
  error : Option String
  warnings : List String
deriving DecidableEq

/-- Model of the re-check query of `createEntry`: `select('*').eq('task_id',
taskId).is('end_at', null).order('start_at', ascending)`. -/
def openRows (taskId : Nat) (s : Store) : List TimeEntry :=
  sortByStart (s.rows.filter (fun r => r.task_id == taskId && r.end_at.isNone))

/-- The row inserted by `createEntry`'s `insert({ task_id: taskId,
start_at })`, with the id assigned by the database. -/
def newEntry (taskId : Nat) (now : Int) (nid : Nat) : TimeEntry :=
  { id := nid, task_id := taskId, start_at := now, end_at := none, duration_seconds := none }

/-- Embedding of `createEntry` (timerService.js lines 25-47).  It first
re-checks the running entries of the task; if any exist it returns the
last one in ascending `start_at` order (`runningRows[runningRows.length -
1]`) without inserting, warning when there are several; otherwise it
inserts a new running row with `start_at = now` (the re-check fetch is
modelled as succeeding, so the `fetchErr` early return is not taken). -/
def createEntry (taskId : Nat) (now : Int) (s : Store) : CreateResult × Store :=
  let runningRows := openRows taskId s
  if 0 < runningRows.length then
    ({ data := runningRows.getLast?, created := false, error := none,
       warnings := if 1 < runningRows.length then
         ["multiple_running_entries:" ++ toString runningRows.length] else [] }, s)
  else
    ({ data := some (newEntry taskId now s.nextId), created := true, error := none,
       warnings := [] },
     { s with rows := s.rows ++ [newEntry taskId now s.nextId], nextId := s.nextId + 1 })

/-- Per-row effect of the `tasks` update issued by `handleStart` when the
target is already met: rows whose id matches get `status := completed`. -/
def markCompletedFn (taskId : Nat) (tk : Task) : Task :=
  if tk.id == taskId then { tk with status := "completed" } else tk

/-- The `tasks` update issued by `handleStart` when the target is already
met: `from('tasks').update({ status: 'completed' }).eq('id', task.id)`. -/
def markCompleted (taskId : Nat) (s : Store) : Store :=
  { s with tasks := s.tasks.map (markCompletedFn taskId) }

/-- Outcome signalled by `handleStart` to its caller: missing target
(alert path), already-complete short-circuit, createEntry failure (throw
path), or a (possibly reused) running entry. -/
inductive StartResult where
  | noTarget
  | alreadyComplete
  | failed (msg : String)
  | running (entry : Option TimeEntry) (created : Bool)
deriving DecidableEq

/-- Embedding of the store-relevant control flow of `handleStart`
(TimerOverlay.jsx lines 173-227).  `effectiveTarget` is the result of
`getEffectiveTarget()`; the JS guard `if (!effectiveTarget)` catches both
a null and a zero target.  The authoritative aggregate is re-read fresh
from the store, `remainingBefore = max(0, target - baseSeconds)` is
computed before any entry creation, and `remainingBefore <= 0` marks the
task completed and creates nothing; otherwise `createEntry` runs
(`agg.baseSeconds || 0` is the identity here since `baseSeconds` is a
number and `0 || 0` is `0`). -/
def handleStart (taskId : Nat) (effectiveTarget : Option Int) (now : Int) (s : Store) :
    StartResult × Store :=
  match effectiveTarget with
  | none => (StartResult.noTarget, s)
  | some t =>
      if t = 0 then (StartResult.noTarget, s)
      else
        let agg := getAggregate (Except.ok (fetchEntries taskId s))
        let authoritativeBase := agg.baseSeconds
        let remainingBefore := max 0 (t - authoritativeBase)
        if remainingBefore ≤ 0 then
          (StartResult.alreadyComplete, markCompleted taskId s)
        else
          let res := createEntry taskId now s
          ((match res.1.error with
            | some msg => StartResult.failed msg
            | none => StartResult.running res.1.data res.1.created), res.2)

/-- The `{ remaining, elapsed, runningSegment }` object returned by
`computeRemaining`. -/
structure RemainingResult where
  remaining : Int
  elapsed : Int
  runningSegment : Int
deriving DecidableEq

/-- Embedding of `computeRemaining` (TimerOverlay.jsx lines 64-69).  The
JS guard `entry && entry.start_at && !entry.end_at` holds exactly when an
entry is present and running (a present `start_at` is a non-empty ISO
string, hence truthy); `(target || 0)` is `target.getD 0` (for the falsy
number 0 both sides are 0). -/
def computeRemaining (entry : Option TimeEntry) (base : Int) (target : Option Int)
    (nowMs : Int) : RemainingResult :=
  let runningSegment :=
    match entry with
    | some e => if e.end_at.isNone then jsRoundDiv1000 (nowMs - e.start_at) else 0
    | none => 0
  let elapsed := base + runningSegment
  let rem := max 0 (target.getD 0 - elapsed)
  { remaining := rem, elapsed := elapsed, runningSegment := runningSegment }

/-- One user-level operation of the timer overlay, for the sequential
at-most-one-open-entry invariant. -/
inductive Op where
  | start (taskId : Nat) (target : Option Int) (now : Int)
  | stop (entryId : Nat) (endAtIso : Option Int) (now : Int)

/-- Effect of one operation on the store. -/
def stepOp (s : Store) : Op → Store
  | Op.start taskId target now => (handleStart taskId target now s).2
  | Op.stop entryId endAtIso now => (stopEntry entryId endAtIso now s).2

/-- Sequential execution of a list of start/stop operations. -/
def run (s : Store) (ops : List Op) : Store := ops.foldl stepOp s

/-- Number of open (running) entries of a task in the store. -/
def openCount (taskId : Nat) (s : Store) : Nat :=
  (s.rows.filter (fun r => r.task_id == taskId && r.end_at.isNone)).length

/-- At most one open entry per task. -/
def AtMostOneOpen (s : Store) : Prop := ∀ t, openCount t s ≤ 1

lemma openRows_length (taskId : Nat) (s : Store) :
    (openRows taskId s).length = openCount taskId s :=
  (List.perm_insertionSort startLE _).length_eq

lemma mem_openRows {taskId : Nat} {s : Store} {a : TimeEntry} :
    a ∈ openRows taskId s ↔
      a ∈ s.rows ∧ (a.task_id == taskId) = true ∧ a.end_at = none := by
  unfold openRows sortByStart
  rw [List.mem_insertionSort, List.mem_filter]
  simp [Option.isNone_iff_eq_none, and_assoc]

lemma sorted_openRows (taskId : Nat) (s : Store) : (openRows taskId s).Sorted startLE :=
  List.sorted_insertionSort startLE _

lemma sorted_getLast?_max :
    ∀ (l : List TimeEntry), l.Sorted startLE → ∀ m, l.getLast? = some m →
      ∀ a ∈ l, a.start_at ≤ m.start_at := by
  intro l
  induction l with
  | nil => intro _ m hm; simp at hm
  | cons x xs ih =>
      intro hs m hm a ha
      cases xs with
      | nil =>
          simp only [List.getLast?_singleton, Option.some.injEq] at hm
          rw [List.mem_singleton] at ha
          rw [ha, hm]
      | cons y ys =>
          rw [List.getLast?_cons_cons] at hm
          rcases List.mem_cons.mp ha with rfl | ha2
          · have hmmem : m ∈ y :: ys := List.mem_of_getLast?_eq_some hm
            exact (List.sorted_cons.mp hs).1 m hmmem
          · exact ih (List.sorted_cons.mp hs).2 m hm a ha2

lemma stopWriteFn_pos (entryId : Nat) (eA d : Int) (r : TimeEntry)
    (h : (r.id == entryId) = true) :
    stopWriteFn entryId eA d r = { r with end_at := some eA, duration_seconds := some d } := by
  rw [stopWriteFn, if_pos h]

lemma stopWriteFn_neg (entryId : Nat) (eA d : Int) (r : TimeEntry)
    (h : ¬ (r.id == entryId) = true) :
    stopWriteFn entryId eA d r = r := by
  rw [stopWriteFn, if_neg h]

lemma filter_open_map_stopWriteFn_le (t entryId : Nat) (eA d : Int) (l : List TimeEntry) :
    ((l.map (stopWriteFn entryId eA d)).filter
        (fun r => r.task_id == t && r.end_at.isNone)).length ≤
      (l.filter (fun r => r.task_id == t && r.end_at.isNone)).length := by
  induction l with
  | nil => simp
  | cons x xs ih =>
      rw [List.map_cons, List.filter_cons, List.filter_cons]
      by_cases hid : (x.id == entryId) = true
      · rw [stopWriteFn_pos entryId eA d x hid]
        by_cases hc : (x.task_id == t && x.end_at.isNone) = true
        all_goals simp [hc]
        all_goals omega
      · rw [stopWriteFn_neg entryId eA d x hid]
        by_cases hc : (x.task_id == t && x.end_at.isNone) = true
        all_goals simp [hc]
        all_goals omega

lemma openCount_stopEntry_le (t entryId : Nat) (endAtIso : Option Int) (now : Int) (s : Store) :
    openCount t (stopEntry entryId endAtIso now s).2 ≤ openCount t s := by
  unfold stopEntry
  cases hf : s.rows.find? (fun r => r.id == entryId) with
  | none => simp [hf, le_refl]
  | some r =>
      simp only [hf, openCount]
      exact filter_open_map_stopWriteFn_le t entryId (endAtIso.getD now)
        (max 0 (jsRoundDiv1000 (endAtIso.getD now - r.start_at))) s.rows

lemma openCount_append_single (t : Nat) (l : List TimeEntry) (e : TimeEntry) :
    ((l ++ [e]).filter (fun r => r.task_id == t && r.end_at.isNone)).length =
      (l.filter (fun r => r.task_id == t && r.end_at.isNone)).length +
        (if (e.task_id == t && e.end_at.isNone) = true then 1 else 0) := by
  rw [List.filter_append]
  by_cases hc : (e.task_id == t && e.end_at.isNone) = true
  · simp [hc]
  · simp [hc]

lemma openCount_createEntry_le (t taskId : Nat) (now : Int) (s : Store)
    (hs : openCount t s ≤ 1) :
    openCount t (createEntry taskId now s).2 ≤ 1 := by
  unfold createEntry
  by_cases hlen : 0 < (openRows taskId s).length
  · simp only [hlen, if_true]
    exact hs
  · have h0 : openCount taskId s = 0 := by
      have hl := openRows_length taskId s
      omega
    simp only [hlen, if_false, openCount]
    rw [openCount_append_single]
    by_cases ht : ((newEntry taskId now s.nextId).task_id == t &&
        (newEntry taskId now s.nextId).end_at.isNone) = true
    · have htt : t = taskId := by
        have hb : (taskId == t) = true := by
          simpa [newEntry] using ht
        exact (Nat.beq_eq_true_eq taskId t).mp hb |>.symm
      subst htt
      have hz : openCount t s = 0 := h0
      rw [if_pos ht]
      unfold openCount at hz
      omega
    · rw [if_neg ht]
      unfold openCount at hs
      omega

lemma handleStart_snd (taskId : Nat) (target : Option Int) (now : Int) (s : Store) :
    (handleStart taskId target now s).2 = s ∨
    (handleStart taskId target now s).2 = markCompleted taskId s ∨
    (handleStart taskId target now s).2 = (createEntry taskId now s).2 := by
  unfold handleStart
  cases target with
  | none => left; rfl
  | some t =>
      by_cases h0 : t = 0
      · left; simp [h0]
      · by_cases hrem : max 0 (t - (getAggregate
            (Except.ok (fetchEntries taskId s))).baseSeconds) ≤ 0
        · right; left; simp [h0, hrem]
        · right; right; simp [h0, hrem]

lemma openCount_markCompleted (t taskId : Nat) (s : Store) :
    openCount t (markCompleted taskId s) = openCount t s := rfl

lemma openCount_handleStart_le (t taskId : Nat) (target : Option Int) (now : Int) (s : Store)
    (hs : openCount t s ≤ 1) :
    openCount t (handleStart taskId target now s).2 ≤ 1 := by
  rcases handleStart_snd taskId target now s with h | h | h
  · rw [h]; exact hs
  · rw [h, openCount_markCompleted]; exact hs
  · rw [h]; exact openCount_createEntry_le t taskId now s hs

lemma AtMostOneOpen_stepOp {s : Store} (hs : AtMostOneOpen s) (op : Op) :
    AtMostOneOpen (stepOp s op) := by
  intro t
  cases op with
  | start taskId target now => exact openCount_handleStart_le t taskId target now s (hs t)
  | stop entryId endAtIso now =>
      exact le_trans (openCount_stopEntry_le t entryId endAtIso now s) (hs t)

lemma AtMostOneOpen_run {s : Store} (ops : List Op) (hs : AtMostOneOpen s) :
    AtMostOneOpen (run s ops) := by
  induction ops generalizing s with
  | nil => exact hs
  | cons op ops ih =>
      simp only [run, List.foldl_cons]
      exact ih (AtMostOneOpen_stepOp hs op)

/-- Claim C5: when at least one open entry exists for the task,
`createEntry` (the entry-creation step of start) creates nothing — the
store is returned unchanged, `created = false`, and the returned `data` is
an existing open entry of the task attaining the maximum `start_at`.  A
new running entry with `start_at = now` is inserted exactly when the
pre-insert re-check finds zero open entries.  Consequently, sequential
execution of start and stop operations from a state with at most one open
entry per task keeps at most one open entry per task in every reachable
state. -/
theorem createEntry_singleOpen_spec :
    (∀ (s : Store) (taskId : Nat) (now : Int),
        0 < openCount taskId s →
        (createEntry taskId now s).2 = s ∧
        (createEntry taskId now s).1.created = false ∧
        ((createEntry taskId now s).1.data).isSome = true ∧
        (∀ m, (createEntry taskId now s).1.data = some m →
          m ∈ s.rows ∧ (m.task_id == taskId) = true ∧ m.end_at = none ∧
          ((s.rows.filter (fun r => r.task_id == taskId && r.end_at.isNone)).all
            (fun r => r.start_at ≤ m.start_at)) = true)) ∧
    (∀ (s : Store) (taskId : Nat) (now : Int),
        openCount taskId s = 0 →
        (createEntry taskId now s).2.rows = s.rows ++ [newEntry taskId now s.nextId] ∧
        (createEntry taskId now s).2.nextId = s.nextId + 1 ∧
        (createEntry taskId now s).1.data = some (newEntry taskId now s.nextId) ∧
        (createEntry taskId now s).1.created = true) ∧
    (∀ (s : Store) (ops : List Op) (t : Nat),
        AtMostOneOpen s → openCount t (run s ops) ≤ 1) := by
  refine ⟨?_, ?_, ?_⟩
  · intro s taskId now hpos
    have hlen : 0 < (openRows taskId s).length := by
      rw [openRows_length]; exact hpos
    unfold createEntry
    simp only [hlen, if_true]
    refine ⟨by simp, by simp, ?_, ?_⟩
    · rw [Option.isSome_iff_ne_none]
      intro hnone
      rw [List.getLast?_eq_none_iff] at hnone
      rw [hnone] at hlen
      simp at hlen
    · intro m hm
      have hmem : m ∈ openRows taskId s := List.mem_of_getLast?_eq_some hm
      have hprops := mem_openRows.mp hmem
      refine ⟨hprops.1, hprops.2.1, hprops.2.2, ?_⟩
      rw [List.all_eq_true]
      intro r hr
      have hrmem : r ∈ openRows taskId s := by
        unfold openRows sortByStart
        rw [List.mem_insertionSort]
        exact hr
      have := sorted_getLast?_max (openRows taskId s) (sorted_openRows taskId s) m hm r hrmem
      exact decide_eq_true this
  · intro s taskId now h0
    have hlen : ¬ 0 < (openRows taskId s).length := by
      rw [openRows_length]; omega
    unfold createEntry
    simp only [hlen, if_false]
    refine ⟨by simp, by simp, by simp, by simp⟩
  · intro s ops t hs
    exact AtMostOneOpen_run ops hs t

/-- Concrete open entry used by the claim C5 witness. -/
def wRowC5 : TimeEntry :=
  { id := 21, task_id := 9, start_at := 500, end_at := none, duration_seconds := none }

/-- Concrete store used by the claim C5 witness: one open entry for task 9. -/
def wStoreC5 : Store := { rows := [wRowC5], nextId := 22, tasks := [] }

/-- Empty store used by the claim C5 witness. -/
def wStoreC5e : Store := { rows := [], nextId := 1, tasks := [] }

/-- Claim C5 witness: on a store with one open entry for task 9,
`createEntry` changes nothing and returns that entry; on an empty store it
inserts a fresh running row; and a concrete start/stop sequence from the
empty store keeps at most one open entry for task 9. -/
theorem createEntry_singleOpen_spec_witness :
    ((createEntry 9 4000 wStoreC5).2 = wStoreC5 ∧
      (createEntry 9 4000 wStoreC5).1.created = false ∧
      (wRowC5 ∈ wStoreC5.rows ∧ (wRowC5.task_id == 9) = true ∧ wRowC5.end_at = none ∧
        ((wStoreC5.rows.filter (fun r => r.task_id == 9 && r.end_at.isNone)).all
          (fun r => r.start_at ≤ wRowC5.start_at)) = true)) ∧
    ((createEntry 9 4000 wStoreC5e).2.rows =
        wStoreC5e.rows ++ [newEntry 9 4000 wStoreC5e.nextId] ∧
      (createEntry 9 4000 wStoreC5e).1.created = true) ∧
    openCount 9 (run wStoreC5e
      [Op.start 9 (some 60) 0, Op.stop 1 (some 30000) 30000, Op.start 9 (some 60) 40000]) ≤ 1 := by
  have h1 := createEntry_singleOpen_spec.1 wStoreC5 9 4000 (by decide)
  have h2 := createEntry_singleOpen_spec.2.1 wStoreC5e 9 4000 (by decide)
  have h3 := createEntry_singleOpen_spec.2.2 wStoreC5e
    [Op.start 9 (some 60) 0, Op.stop 1 (some 30000) 30000, Op.start 9 (some 60) 40000] 9
    (fun t => by simp [openCount, wStoreC5e])
  exact ⟨⟨h1.1, h1.2.1, h1.2.2.2 wRowC5 (by decide)⟩, ⟨h2.1, h2.2.2.2⟩, h3⟩

/-- Claim C3: for every task and positive target, when the freshly read
authoritative `baseSeconds` already meets the target (`target -
baseSeconds ≤ 0`), `handleStart` creates no time entry — the rows and
`nextId` are untouched — and signals completion, marking the task row
completed. -/
theorem handleStart_alreadyComplete_spec (s : Store) (taskId : Nat) (t now : Int)
    (ht : 0 < t)
    (hb : t - (getAggregate (Except.ok (fetchEntries taskId s))).baseSeconds ≤ 0) :
    handleStart taskId (some t) now s = (StartResult.alreadyComplete, markCompleted taskId s) ∧
    (markCompleted taskId s).rows = s.rows ∧
    (markCompleted taskId s).nextId = s.nextId ∧
    ((markCompleted taskId s).tasks.all
      (fun tk => !(tk.id == taskId) || (tk.status == "completed"))) = true := by
  have ht0 : t ≠ 0 := by omega
  have hmax : max 0 (t - (getAggregate (Except.ok (fetchEntries taskId s))).baseSeconds) ≤ 0 :=
    max_le le_rfl hb
  refine ⟨?_, rfl, rfl, ?_⟩
  · unfold handleStart
    simp [ht0, hmax]
  · rw [List.all_eq_true]
    intro tk htk
    simp only [markCompleted, List.mem_map] at htk
    obtain ⟨tk0, _, rfl⟩ := htk
    by_cases hidk : (tk0.id == taskId) = true
    · simp [markCompletedFn, hidk]
    · simp [markCompletedFn, hidk]

/-- Concrete closed entry (3600 s) used by the claim C3 witness. -/
def wRowC3 : TimeEntry :=
  { id := 31, task_id := 2, start_at := 0, end_at := some 3600000,
    duration_seconds := some 3600 }

/-- Concrete store used by the claim C3 witness: task 2 has one closed
entry worth 3600 seconds. -/
def wStoreC3 : Store := { rows := [wRowC3], nextId := 32, tasks := [{ id := 2, status := "pending" }] }

/-- Claim C3 witness: with one closed 3600-second entry and target 3000,
`handleStart` creates nothing and marks task 2 completed. -/
theorem handleStart_alreadyComplete_spec_witness :
    handleStart 2 (some 3000) 999 wStoreC3 =
      (StartResult.alreadyComplete, markCompleted 2 wStoreC3) ∧
    (markCompleted 2 wStoreC3).rows = wStoreC3.rows ∧
    (markCompleted 2 wStoreC3).nextId = wStoreC3.nextId ∧
    ((markCompleted 2 wStoreC3).tasks.all
      (fun tk => !(tk.id == 2) || (tk.status == "completed"))) = true :=
  handleStart_alreadyComplete_spec wStoreC3 2 3000 999 (by decide) (by decide)

lemma foldl_pick_mem : ∀ (xs : List TimeEntry) (x : TimeEntry), xs.foldl pick x ∈ x :: xs := by
  intro xs
  induction xs with
  | nil => intro x; simp
  | cons y ys ih =>
      intro x
      rw [List.foldl_cons]
      have h := ih (pick x y)
      rcases List.mem_cons.mp h with he | hm
      · rw [he]
        by_cases hc : y.start_at < x.start_at
        · rw [pick, if_pos hc]
          exact List.mem_cons_self x (y :: ys)
        · rw [pick, if_neg hc]
          exact List.mem_cons_of_mem x (List.mem_cons_self y ys)
      · exact List.mem_cons_of_mem x (List.mem_cons_of_mem y hm)

lemma pick_le_left (x y : TimeEntry) : x.start_at ≤ (pick x y).start_at := by
  rw [pick]
  by_cases hc : y.start_at < x.start_at
  · rw [if_pos hc]
  · rw [if_neg hc]
    omega

lemma pick_le_right (x y : TimeEntry) : y.start_at ≤ (pick x y).start_at := by
  rw [pick]
  by_cases hc : y.start_at < x.start_at
  · rw [if_pos hc]
    omega
  · rw [if_neg hc]

lemma foldl_pick_max : ∀ (xs : List TimeEntry) (x a : TimeEntry),
    a ∈ x :: xs → a.start_at ≤ (xs.foldl pick x).start_at := by
  intro xs
  induction xs with
  | nil =>
      intro x a ha
      rw [List.mem_singleton] at ha
      rw [ha, List.foldl_nil]
  | cons y ys ih =>
      intro x a ha
      rw [List.foldl_cons]
      have hhead : (pick x y).start_at ≤ (ys.foldl pick (pick x y)).start_at :=
        ih (pick x y) (pick x y) (List.mem_cons_self _ _)
      rcases List.mem_cons.mp ha with rfl | ha2
      · exact le_trans (pick_le_left a y) hhead
      rcases List.mem_cons.mp ha2 with rfl | ha3
      · exact le_trans (pick_le_right x a) hhead
      · exact ih (pick x y) a (List.mem_cons_of_mem _ ha3)

lemma pickLatest_mem_max (l : List TimeEntry) (m : TimeEntry)
    (hm : pickLatest l = some m) :
    m ∈ l ∧ ∀ a ∈ l, a.start_at ≤ m.start_at := by
  cases l with
  | nil => simp [pickLatest] at hm
  | cons x xs =>
      simp only [pickLatest, Option.some.injEq] at hm
      subst hm
      exact ⟨foldl_pick_mem xs x, fun a ha => foldl_pick_max xs x a ha⟩

/-- Claim C4: with more than one open entry, `getAggregate` returns as
`runningEntry` an open entry of the list attaining the maximum `start_at`
and puts the warning `multiple_running_entries:<count>` (with the open
count) in `warnings`; with exactly one open entry that entry is returned
and the warnings are empty; with none, `runningEntry` is null. -/
theorem getAggregate_runningEntry_spec (entries : List TimeEntry) :
    ((entries.filter (fun r => r.end_at.isNone)).length = 0 →
      (getAggregate (Except.ok entries)).runningEntry = none) ∧
    ((entries.filter (fun r => r.end_at.isNone)).length = 1 →
      (getAggregate (Except.ok entries)).runningEntry =
        (entries.filter (fun r => r.end_at.isNone)).head? ∧
      (getAggregate (Except.ok entries)).warnings = []) ∧
    (1 < (entries.filter (fun r => r.end_at.isNone)).length →
      ("multiple_running_entries:" ++
          toString (entries.filter (fun r => r.end_at.isNone)).length)
        ∈ (getAggregate (Except.ok entries)).warnings ∧
      ((getAggregate (Except.ok entries)).runningEntry).isSome = true ∧
      (∀ m, (getAggregate (Except.ok entries)).runningEntry = some m →
        m ∈ entries ∧ m.end_at = none ∧
        ((entries.filter (fun r => r.end_at.isNone)).all
          (fun r => r.start_at ≤ m.start_at)) = true)) := by
  refine ⟨?_, ?_, ?_⟩
  · intro h0
    simp [getAggregate, h0]
  · intro h1
    constructor
    · simp [getAggregate, h1]
    · have hn1 : ¬ 1 < (entries.filter (fun r => r.end_at.isNone)).length := by omega
      simp [getAggregate, hn1]
  · intro hgt
    have hn1 : ¬ (entries.filter (fun r => r.end_at.isNone)).length = 1 := by omega
    have hrun : (getAggregate (Except.ok entries)).runningEntry =
        pickLatest (entries.filter (fun r => r.end_at.isNone)) := by
      simp [getAggregate, hn1, hgt]
    have hne : entries.filter (fun r => r.end_at.isNone) ≠ [] := by
      intro hnil
      rw [hnil] at hgt
      simp at hgt
    refine ⟨?_, ?_, ?_⟩
    · simp [getAggregate, hn1, hgt]
    · rw [hrun]
      cases hfe : entries.filter (fun r => r.end_at.isNone) with
      | nil => exact absurd hfe hne
      | cons x xs => simp [pickLatest]
    · intro m hm
      rw [hrun] at hm
      have hmm := pickLatest_mem_max (entries.filter (fun r => r.end_at.isNone)) m hm
      have hmf := List.mem_filter.mp hmm.1
      refine ⟨hmf.1, ?_, ?_⟩
      · have := hmf.2
        simpa [Option.isNone_iff_eq_none] using this
      · rw [List.all_eq_true]
        intro r hr
        exact decide_eq_true (hmm.2 r hr)

/-- First open entry (earlier `start_at`) used by the claim C4 witness. -/
def wRowC4a : TimeEntry :=
  { id := 41, task_id := 3, start_at := 0, end_at := none, duration_seconds := none }

/-- Second open entry (later `start_at`) used by the claim C4 witness. -/
def wRowC4b : TimeEntry :=
  { id := 42, task_id := 3, start_at := 2000, end_at := none, duration_seconds := none }

/-- Claim C4 witness: with the two open entries above (`start_at` 0 and
2000), `getAggregate` warns `multiple_running_entries:2` and returns the
entry with `start_at = 2000`. -/
theorem getAggregate_runningEntry_spec_witness :
    ("multiple_running_entries:" ++
        toString ([wRowC4a, wRowC4b].filter (fun r => r.end_at.isNone)).length)
      ∈ (getAggregate (Except.ok [wRowC4a, wRowC4b])).warnings ∧
    ((getAggregate (Except.ok [wRowC4a, wRowC4b])).runningEntry).isSome = true ∧
    (wRowC4b ∈ [wRowC4a, wRowC4b] ∧ wRowC4b.end_at = none ∧
      (([wRowC4a, wRowC4b].filter (fun r => r.end_at.isNone)).all
        (fun r => r.start_at ≤ wRowC4b.start_at)) = true) := by
  have h := (getAggregate_runningEntry_spec [wRowC4a, wRowC4b]).2.2 (by decide)
  exact ⟨h.1, h.2.1, h.2.2 wRowC4b (by decide)⟩

lemma jsRoundDiv1000_exact (k : Int) : jsRoundDiv1000 (1000 * k) = k := by
  unfold jsRoundDiv1000
  omega

/-- Claim C7: the display computation.  With no running entry the running
segment is 0 and the elapsed value is the base; with a running entry the
running segment is `now - start_at` rounded to seconds, the elapsed value
is `base + runningSegment`, and the displayed remaining value is `max 0
(target - elapsed)`; in particular when `start_at` lags `now` by exactly
`k` whole seconds the running segment is `k` and the remaining value is
`max 0 (target - (base + k))` (so base 1800, target 3600, a 300-second-old
running entry give 1500). -/
theorem computeRemaining_spec (base target nowMs : Int) (e : TimeEntry) (k : Int) :
    (computeRemaining none base (some target) nowMs).runningSegment = 0 ∧
    (computeRemaining none base (some target) nowMs).elapsed = base ∧
    (computeRemaining none base (some target) nowMs).remaining = max 0 (target - base) ∧
    (e.end_at = none →
      (computeRemaining (some e) base (some target) nowMs).runningSegment =
        jsRoundDiv1000 (nowMs - e.start_at) ∧
      (computeRemaining (some e) base (some target) nowMs).elapsed =
        base + jsRoundDiv1000 (nowMs - e.start_at) ∧
      (computeRemaining (some e) base (some target) nowMs).remaining =
        max 0 (target - (base + jsRoundDiv1000 (nowMs - e.start_at)))) ∧
    (e.end_at = none → e.start_at = nowMs - 1000 * k →
      (computeRemaining (some e) base (some target) nowMs).runningSegment = k ∧
      (computeRemaining (some e) base (some target) nowMs).remaining =
        max 0 (target - (base + k))) := by
  refine ⟨by simp [computeRemaining], by simp [computeRemaining],
    by simp [computeRemaining], ?_, ?_⟩
  · intro hopen
    refine ⟨?_, ?_, ?_⟩
    all_goals simp [computeRemaining, hopen]
  · intro hopen hstart
    have hk : jsRoundDiv1000 (nowMs - e.start_at) = k := by
      rw [hstart]
      have : nowMs - (nowMs - 1000 * k) = 1000 * k := by ring
      rw [this, jsRoundDiv1000_exact]
    constructor
    · simp [computeRemaining, hopen, hk]
    · simp [computeRemaining, hopen, hk]

/-- Concrete running entry used by the claim C7 witness: started 300
seconds (300000 ms) before the probe time 1000000 ms. -/
def wRowC7 : TimeEntry :=
  { id := 51, task_id := 6, start_at := 700000, end_at := none, duration_seconds := none }

/-- Claim C7 witness: base 1800, target 3600, a 300-second-old running
entry: the running segment is 300 and the remaining display value is
1500. -/
theorem computeRemaining_spec_witness :
    (computeRemaining (some wRowC7) 1800 (some 3600) 1000000).runningSegment = 300 ∧
    (computeRemaining (some wRowC7) 1800 (some 3600) 1000000).remaining = 1500 := by
  have h := (computeRemaining_spec 1800 3600 1000000 wRowC7 300).2.2.2.2 (by decide) (by decide)
  exact ⟨h.1, h.2.trans (by decide)⟩

end LifeTracker
